import Mathlib

/-!
Verification of the `VoiceManager` speech controller (`src/voice.ts`).

The development shallowly embeds the parts of `VoiceManager` that the
specified properties talk about:

* `cleanTextForSpeech` — the text sanitizer (emoji / URL / markup-character
  removal, whitespace collapsing, trimming), modelled over `List Char`
  (Unicode scalar values, matching the `u`-flagged JavaScript regexes).
* `handleRecognitionError` — the recognition `onerror` handler's
  classification of engine error codes into callbacks.
* `speakFull` — a one-invocation functional model of `speak()` /
  `speakWithOpenAI()` / `speakWithBrowser()`, parameterised by an
  environment describing how the network fetch, the audio element and the
  local synthesis engine behave.
* a small-step trace model (`stepA` / `runTrace`) of overlapping `speak()`
  calls, recognition-engine callbacks and audio-element events, used for
  the cross-invocation (epoch / mutual-exclusion) properties.

All definitions are structural recursions so that concrete runs evaluate
by `decide` / `rfl`.
-/

namespace Kuchi

/-! ### Character classes used by `cleanTextForSpeech` -/

/-- The emoji code-point ranges of the `emojiRegex` in `cleanTextForSpeech`
(`/[\u{1F600}-\u{1F64F}...\u{1FA70}-\u{1FAFF}]/gu`). -/
def isEmojiChar (c : Char) : Bool :=
  let n := c.toNat
  (0x1F600 ≤ n && n ≤ 0x1F64F) ||
  (0x1F300 ≤ n && n ≤ 0x1F5FF) ||
  (0x1F680 ≤ n && n ≤ 0x1F6FF) ||
  (0x1F1E0 ≤ n && n ≤ 0x1F1FF) ||
  (0x2600 ≤ n && n ≤ 0x26FF) ||
  (0x2700 ≤ n && n ≤ 0x27BF) ||
  (0x1F900 ≤ n && n ≤ 0x1F9FF) ||
  (0x1FA70 ≤ n && n ≤ 0x1FAFF)

/-- The "special characters" removed by `cleanTextForSpeech`
(`/[*#_~`]/g`): asterisk, hash, underscore, tilde and backtick (0x60). -/
def isSpecialChar (c : Char) : Bool :=
  c = '*' || c = Char.ofNat 0x23 || c = '_' || c = '~' || c = Char.ofNat 0x60

/-- ECMAScript `\s` (WhiteSpace ∪ LineTerminator), the class used by the
`/\s+/g` collapse, by `\S` in the URL regex and by `String.prototype.trim`. -/
def isJsSpace (c : Char) : Bool :=
  let n := c.toNat
  (9 ≤ n && n ≤ 13) || n = 32 || n = 0xA0 || n = 0x1680 ||
  (0x2000 ≤ n && n ≤ 0x200A) || n = 0x2028 || n = 0x2029 ||
  n = 0x202F || n = 0x205F || n = 0x3000 || n = 0xFEFF

/-! ### The four rewriting passes of `cleanTextForSpeech` -/

/-- `text.replace(emojiRegex, '')`. -/
def emojiRemove (l : List Char) : List Char :=
  l.filter (fun c => !isEmojiChar c)

/-- `cleanText.replace(/[*#_~`]/g, '')`. -/
def specialRemove (l : List Char) : List Char :=
  l.filter (fun c => !isSpecialChar c)

/-- Scanner for `cleanText.replace(/https?:\/\/\S+/g, '')`.

With the flag `false` the scanner is looking for the start of a match at
the current position; a match needs the literal scheme `http://` or
`https://` followed by at least one non-whitespace character (`\S+`).
With the flag `true` the scanner is inside the greedy `\S+` of a match and
drops characters up to (excluding) the next whitespace character, where
normal scanning resumes.  When the scheme is present but followed by
whitespace there is no match (and, the scheme containing no further `h`,
no match can start inside it), so the scheme characters are kept and
scanning resumes at the whitespace character. -/
def urlAux : Bool → List Char → List Char
  | _, [] => []
  | true, c :: rest =>
      if isJsSpace c then c :: urlAux false rest else urlAux true rest
  | false, 'h' :: 't' :: 't' :: 'p' :: 's' :: ':' :: '/' :: '/' :: c :: rest =>
      if isJsSpace c then
        'h' :: 't' :: 't' :: 'p' :: 's' :: ':' :: '/' :: '/' :: urlAux false (c :: rest)
      else urlAux true rest
  | false, 'h' :: 't' :: 't' :: 'p' :: ':' :: '/' :: '/' :: c :: rest =>
      if isJsSpace c then
        'h' :: 't' :: 't' :: 'p' :: ':' :: '/' :: '/' :: urlAux false (c :: rest)
      else urlAux true rest
  | false, c :: rest => c :: urlAux false rest

/-- `cleanText.replace(/https?:\/\/\S+/g, '')`. -/
def urlRemove (l : List Char) : List Char := urlAux false l

/-- Scanner for `cleanText.replace(/\s+/g, ' ')`: the flag records whether
the previous character was part of a whitespace run already replaced. -/
def collapseAux : Bool → List Char → List Char
  | _, [] => []
  | b, c :: rest =>
      if isJsSpace c then
        if b then collapseAux true rest else ' ' :: collapseAux true rest
      else c :: collapseAux false rest

/-- `cleanText.replace(/\s+/g, ' ')`. -/
def collapseWs (l : List Char) : List Char := collapseAux false l

/-- `String.prototype.trim()`: strip leading and trailing whitespace. -/
def jsTrim (l : List Char) : List Char :=
  ((l.dropWhile isJsSpace).reverse.dropWhile isJsSpace).reverse

/-- `VoiceManager.cleanTextForSpeech` on character lists: remove emojis,
then URLs, then special characters, then collapse whitespace and trim. -/
def cleanList (l : List Char) : List Char :=
  jsTrim (collapseWs (specialRemove (urlRemove (emojiRemove l))))

/-- `VoiceManager.cleanTextForSpeech`. -/
def cleanTextForSpeech (s : String) : String :=
  String.mk (cleanList s.data)

/-! ### Recognition error classification (`initializeRecognition`, `onerror`) -/

/-- Observable callback invocations and externally visible effects of the
controller, in the order they occur. -/
inductive VEvent where
  | listeningEnd
  | error (msg : String)
  | speakingStart
  | speakingEnd
  | stopListeningReq
  | audioPauseReset
  | synthCancel
  | fetchIssued (text : String)
  | audioPlaybackStarted
  | audioPlayedToEnd
  | browserUtter (text : String)
  | restartScheduled
  deriving DecidableEq, Repr

/-- The `errorMessages` table of the `onerror` handler, with its
`Error: ${event.error}` default. -/
def recErrorMessage (e : String) : String :=
  if e = "no-speech" then "No speech detected"
  else if e = "audio-capture" then "Microphone not available"
  else if e = "not-allowed" then "Microphone permission denied"
  else if e = "network" then "Connection error"
  else if e = "aborted" then "Speech recognition stopped"
  else if e = "service-not-allowed" then "Speech service blocked"
  else "Error: " ++ e

/-- The `recognition.onerror` handler: sets `isListening = false` (first
component) and fires callbacks (second component).  For `'aborted'` it
fires only `onListeningEnd` and returns; every other code is delivered to
`onError` with its mapped message. -/
def handleRecognitionError (e : String) : Bool × List VEvent :=
  (false,
    if e = "aborted" then [VEvent.listeningEnd]
    else [VEvent.error (recErrorMessage e)])

/-! ### Single-invocation model of `speak` / `speakWithOpenAI` / `speakWithBrowser`

One `speak()` call is modelled as a function of the manager's state at
call time and of an environment that fixes the outcome of each suspension
point: the network fetch, the audio element playback, and the local
synthesis engine.  The model follows the non-iOS code paths (the iOS
stall-workaround timers change no observable ordering modelled here). -/

/-- `TTSProvider`. -/
inductive Provider where
  | openai
  | browser
  deriving DecidableEq, Repr

/-- The fields of `VoiceManager` a single `speak()` invocation reads or
writes. -/
structure VMState where
  isListening : Bool
  isSpeaking : Bool
  continuousMode : Bool
  ttsProvider : Provider
  openaiApiKey : String
  audioUnlocked : Bool
  deriving DecidableEq, Repr

/-- Outcome of `fetch('https://api.openai.com/v1/audio/speech', ...)`. -/
inductive FetchOutcome where
  | netError
  | httpError (status : Nat)
  | ok
  deriving DecidableEq, Repr

/-- Outcome of playing the fetched audio on the audio element:
`play()` rejects, the element fires `'error'`, or playback runs to the
`'ended'` event. -/
inductive PlayOutcome where
  | startFails
  | errorEvent
  | ended
  deriving DecidableEq, Repr

/-- Outcome of the `SpeechSynthesisUtterance` of `speakWithBrowser`. -/
inductive BrowserOutcome where
  | ended
  | errInterrupted
  | errCanceled
  | errOther (msg : String)
  deriving DecidableEq, Repr

/-- Environment resolving every suspension point of one invocation. -/
structure SpeakEnv where
  fetch : FetchOutcome
  play : PlayOutcome
  browser : BrowserOutcome
  deriving DecidableEq, Repr

/-- How the promise returned by `speak()` settles. -/
inductive SpeakResult where
  | resolved
  | rejected (msg : String)
  deriving DecidableEq, Repr

/-- State after the invocation, events in order, and promise settlement. -/
structure SpeakRun where
  state : VMState
  evs : List VEvent
  result : SpeakResult
  deriving DecidableEq, Repr

/-- `speakWithBrowser(text)`: cancel the synthesis queue, speak the
utterance, and settle according to the engine's callbacks.  `'interrupted'`
and `'canceled'` errors are treated as a normal end (resolve); any other
error is reported through `onError` and rejects the promise. -/
def speakWithBrowser (st : VMState) (env : SpeakEnv) (text : String) : SpeakRun :=
  match env.browser with
  | BrowserOutcome.ended =>
      { state := { st with isSpeaking := false }
        evs := [VEvent.synthCancel, VEvent.browserUtter text] ++
          (if st.isListening then [VEvent.stopListeningReq] else []) ++
          [VEvent.speakingStart, VEvent.speakingEnd] ++
          (if st.continuousMode then [VEvent.restartScheduled] else [])
        result := SpeakResult.resolved }
  | BrowserOutcome.errInterrupted =>
      { state := { st with isSpeaking := false }
        evs := [VEvent.synthCancel, VEvent.browserUtter text, VEvent.speakingEnd]
        result := SpeakResult.resolved }
  | BrowserOutcome.errCanceled =>
      { state := { st with isSpeaking := false }
        evs := [VEvent.synthCancel, VEvent.browserUtter text, VEvent.speakingEnd]
        result := SpeakResult.resolved }
  | BrowserOutcome.errOther m =>
      { state := { st with isSpeaking := false }
        evs := [VEvent.synthCancel, VEvent.browserUtter text,
                VEvent.error ("Speech error: " ++ m)]
        result := SpeakResult.rejected m }

/-- `speakWithOpenAI(text)`: if audio is not unlocked, fall straight back
to the browser path.  Otherwise mark speaking, stop capture if active,
notify `onSpeakingStart`, issue the fetch; on request failure (network
error or non-2xx status) or playback failure, clear speaking, notify
`onSpeakingEnd` and retry once via `speakWithBrowser` with the same text;
on playback running to `'ended'`, notify `onSpeakingEnd` and resolve. -/
def speakWithOpenAI (st : VMState) (env : SpeakEnv) (text : String) : SpeakRun :=
  if !st.audioUnlocked then speakWithBrowser st env text
  else
    let st₁ : VMState := { st with isSpeaking := true }
    let evs₁ : List VEvent :=
      (if st.isListening then [VEvent.stopListeningReq] else []) ++
      [VEvent.speakingStart, VEvent.fetchIssued text]
    match env.fetch with
    | FetchOutcome.netError =>
        let fb := speakWithBrowser { st₁ with isSpeaking := false } env text
        { fb with evs := evs₁ ++ [VEvent.speakingEnd] ++ fb.evs }
    | FetchOutcome.httpError _ =>
        let fb := speakWithBrowser { st₁ with isSpeaking := false } env text
        { fb with evs := evs₁ ++ [VEvent.speakingEnd] ++ fb.evs }
    | FetchOutcome.ok =>
        match env.play with
        | PlayOutcome.startFails =>
            let fb := speakWithBrowser { st₁ with isSpeaking := false } env text
            { fb with evs := evs₁ ++ [VEvent.speakingEnd] ++ fb.evs }
        | PlayOutcome.errorEvent =>
            let fb := speakWithBrowser { st₁ with isSpeaking := false } env text
            { fb with evs := evs₁ ++ [VEvent.speakingEnd] ++ fb.evs }
        | PlayOutcome.ended =>
            { state := { st₁ with isSpeaking := false }
              evs := evs₁ ++
                [VEvent.audioPlaybackStarted, VEvent.audioPlayedToEnd,
                 VEvent.speakingEnd] ++
                (if st.continuousMode then [VEvent.restartScheduled] else [])
              result := SpeakResult.resolved }

/-- `speak(text)`: sanitize; if the sanitized text is empty resolve with no
effects; otherwise stop current speech (pause/reset the audio element and
cancel the synthesis queue) and route to the OpenAI path when the provider
is `openai` and the stored key is non-empty, else to the browser path. -/
def speakFull (st : VMState) (env : SpeakEnv) (text : String) : SpeakRun :=
  let ct := cleanTextForSpeech text
  if ct = "" then { state := st, evs := [], result := SpeakResult.resolved }
  else
    let st₁ : VMState := { st with isSpeaking := false }
    let evs₀ : List VEvent := [VEvent.audioPauseReset, VEvent.synthCancel]
    let r :=
      if st.ttsProvider = Provider.openai ∧ st.openaiApiKey ≠ "" then
        speakWithOpenAI st₁ env ct
      else
        speakWithBrowser st₁ env ct
    { r with evs := evs₀ ++ r.evs }

/-- The texts handed to the browser synthesis engine during a run. -/
def browserTexts (evs : List VEvent) : List String :=
  evs.filterMap (fun e => match e with
    | VEvent.browserUtter t => some t
    | _ => none)

/-- `a` occurs in `l` strictly before some occurrence of `b`. -/
def eventBefore (a b : VEvent) (l : List VEvent) : Prop :=
  ∃ l₁ l₂, l = l₁ ++ a :: l₂ ∧ b ∈ l₂

/-! ### Trace model: overlapping `speak()` calls and engine callbacks

Cross-invocation behaviour (a second `speak()` issued before the first
settles, `startListening()` racing against speech, delivery of the
recognition engine's asynchronous callbacks) is modelled as a small-step
system.  The configuration is fixed to the remote provider with a stored
key and unlocked audio, `continuousMode = false` and a non-empty sanitized
text per call, which is the configuration the cross-invocation claims are
about.  Call identifiers number `speak()` invocations in program order. -/

/-- Global state of the manager between interleaved callbacks. -/
structure TState where
  isListening : Bool
  isSpeaking : Bool
  /-- `recognition.start()` was called; `onstart` not yet delivered. -/
  recStarting : Bool
  /-- `recognition.stop()` was called; `onend` not yet delivered. -/
  recStopReq : Bool
  /-- In-flight `fetch` requests: call id and sanitized text. -/
  pendingFetches : List (Nat × String)
  /-- The call id whose audio is loaded in the shared audio element. -/
  audioSrc : Option Nat
  audioPlaying : Bool
  /-- Call ids with an `'ended'` listener registered on the element. -/
  listeners : List Nat
  /-- Call ids whose promise has resolved. -/
  resolvedCalls : List Nat
  /-- Call ids whose audio fired `'ended'` (was heard to completion). -/
  completedAudio : List Nat
  /-- Call ids already used by a `speak()` invocation. -/
  usedIds : List Nat
  deriving DecidableEq, Repr

/-- All-idle initial state. -/
def initT : TState :=
  { isListening := false, isSpeaking := false, recStarting := false
    recStopReq := false, pendingFetches := [], audioSrc := none
    audioPlaying := false, listeners := [], resolvedCalls := []
    completedAudio := [], usedIds := [] }

/-- Scheduler actions: caller entry points and asynchronous callbacks. -/
inductive TAction where
  /-- `startListening()` is invoked. -/
  | callStartListening
  /-- The recognition engine delivers `onstart`. -/
  | engineStarted
  /-- The recognition engine delivers `onend`. -/
  | engineEnded
  /-- `speak(text)` is invoked (synchronous part up to the `await fetch`). -/
  | callSpeak (id : Nat) (text : String)
  /-- The fetch of call `id` returns successfully; the handler registers
  the `'ended'` listener, loads the blob into the element and plays it. -/
  | fetchReturns (id : Nat)
  /-- The audio element delivers `'ended'`. -/
  | audioEnded
  deriving DecidableEq, Repr

/-- One step; `none` when the action is not enabled in `s`. -/
def stepA (s : TState) (a : TAction) : Option TState :=
  match a with
  | TAction.callStartListening =>
      -- `if (this.isListening) return;` then `recognition.start()`.
      if s.isListening then some s else some { s with recStarting := true }
  | TAction.engineStarted =>
      if s.recStarting then
        some { s with recStarting := false, isListening := true }
      else none
  | TAction.engineEnded =>
      if s.recStopReq || s.isListening then
        some { s with recStopReq := false, isListening := false }
      else none
  | TAction.callSpeak id text =>
      let ct := cleanTextForSpeech text
      if id ∈ s.usedIds then none
      else if ct = "" then
        -- empty sanitized text: resolve immediately, no side effects.
        some { s with resolvedCalls := s.resolvedCalls ++ [id]
                      usedIds := s.usedIds ++ [id] }
      else
        -- `stopSpeaking()`: `isSpeaking = false`, pause/reset the audio
        -- element (the loaded source stays), cancel the synthesis queue;
        -- then the OpenAI path: `isSpeaking = true`, stop capture if
        -- active, `onSpeakingStart`, issue the fetch.
        some { s with isSpeaking := true
                      audioPlaying := false
                      recStopReq := s.recStopReq || s.isListening
                      pendingFetches := s.pendingFetches ++ [(id, ct)]
                      usedIds := s.usedIds ++ [id] }
  | TAction.fetchReturns id =>
      match s.pendingFetches.find? (fun p => p.1 = id) with
      | some _ =>
          some { s with
                  pendingFetches := s.pendingFetches.filter (fun p => p.1 ≠ id)
                  listeners := s.listeners ++ [id]
                  audioSrc := some id
                  audioPlaying := true }
      | none => none
  | TAction.audioEnded =>
      match s.audioSrc with
      | some j =>
          if s.audioPlaying then
            -- every registered `'ended'` listener fires: each clears
            -- `isSpeaking`, emits `onSpeakingEnd` and resolves its call.
            some { s with audioPlaying := false
                          isSpeaking := false
                          listeners := []
                          resolvedCalls := s.resolvedCalls ++ s.listeners
                          completedAudio := s.completedAudio ++ [j] }
          else none
      | none => none

/-- Run a list of actions; fails if any action is not enabled. -/
def runTrace (s : TState) : List TAction → Option TState
  | [] => some s
  | a :: rest =>
      match stepA s a with
      | some s' => runTrace s' rest
      | none => none

/-! ### Auxiliary predicates and concrete scenarios -/

/-- The remote-path failure modes named by the fallback contract: the
request fails (network error), the response is non-2xx, or playback fails
to start. -/
def remoteFails (env : SpeakEnv) : Prop :=
  env.fetch = FetchOutcome.netError ∨
  (∃ n, env.fetch = FetchOutcome.httpError n) ∨
  (env.fetch = FetchOutcome.ok ∧ env.play = PlayOutcome.startFails)

/-- How `speakWithBrowser`'s promise settles as a function of the engine
outcome: only an error other than `'interrupted'`/`'canceled'` rejects. -/
def browserSettles : BrowserOutcome → SpeakResult
  | BrowserOutcome.errOther m => SpeakResult.rejected m
  | _ => SpeakResult.resolved

/-- Well-spaced lists: no two adjacent whitespace characters, and every
whitespace character is the plain space `collapseWs` substitutes. -/
def goodWs (l : List Char) : Prop :=
  l.Chain' (fun a b => isJsSpace a = false ∨ isJsSpace b = false) ∧
  ∀ c ∈ l, isJsSpace c = true → c = ' '

/-- A manager configured for the remote provider, unlocked, idle. -/
def sampleRemote : VMState :=
  { isListening := false, isSpeaking := false, continuousMode := false
    ttsProvider := Provider.openai, openaiApiKey := "sk-key"
    audioUnlocked := true }

/-- An environment in which every suspension point succeeds. -/
def envAllOk : SpeakEnv :=
  { fetch := FetchOutcome.ok, play := PlayOutcome.ended
    browser := BrowserOutcome.ended }

/-- Two overlapping `speak()` calls; the second call's synthesis response
arrives first, the superseded first call's response arrives later, and the
audio element then plays to the `'ended'` event. -/
def c1Trace : List TAction :=
  [TAction.callSpeak 1 "first", TAction.callSpeak 2 "second",
   TAction.fetchReturns 2, TAction.fetchReturns 1, TAction.audioEnded]

/-- `speak()` enters the speaking phase, then `startListening()` is
invoked and the recognition engine delivers `onstart`. -/
def c2Trace : List TAction :=
  [TAction.callSpeak 1 "hi", TAction.callStartListening,
   TAction.engineStarted]

/-! ## Helper lemmas about the browser path -/

/-- Whatever the engine outcome, `speakWithBrowser` hands exactly its
argument text to the synthesis engine, once. -/
theorem browserTexts_speakWithBrowser (st : VMState) (env : SpeakEnv)
    (text : String) :
    browserTexts (speakWithBrowser st env text).evs = [text] := by
  rcases env with ⟨f, p, b⟩
  cases b <;> cases hL : st.isListening <;>
    cases hC : st.continuousMode <;>
      simp [speakWithBrowser, browserTexts, hL, hC]

/-- The browser path never issues a network request. -/
theorem fetchIssued_not_mem_speakWithBrowser (st : VMState) (env : SpeakEnv)
    (text t : String) :
    VEvent.fetchIssued t ∉ (speakWithBrowser st env text).evs := by
  rcases env with ⟨f, p, b⟩
  cases b <;> cases hL : st.isListening <;>
    cases hC : st.continuousMode <;>
      simp [speakWithBrowser, hL, hC]

/-- The browser path's promise settles according to the engine outcome:
it rejects exactly on an error other than `'interrupted'`/`'canceled'`. -/
theorem result_speakWithBrowser (st : VMState) (env : SpeakEnv)
    (text : String) :
    (speakWithBrowser st env text).result = browserSettles env.browser := by
  rcases env with ⟨f, p, b⟩
  cases b <;> simp [speakWithBrowser, browserSettles]

/-! ## Claim C7 — sanitizer scenario -/

/-- Claim C7, counterexample: on the input of the spec's scenario the
sanitizer does not produce `"visit now"`; the exclamation marks survive,
because `!` is not among the stripped characters `* # _ ~ `​`. -/
theorem cleanText_scenario_ne_visit_now :
    cleanTextForSpeech "🎉 visit https://x.com now!!" ≠ "visit now" := by
  decide

/-- Claim C7 (amended): on `"🎉 visit https://x.com now!!"` the sanitizer
produces exactly `"visit now!!"` — emoji removed, URL removed, whitespace
collapsed and trimmed, but the exclamation marks are kept, since only
`* # _ ~` and backtick are stripped. -/
theorem cleanText_scenario_eq :
    cleanTextForSpeech "🎉 visit https://x.com now!!" = "visit now!!" := by
  decide

/-! ## Claim C9 — empty sanitized text -/

/-- Claim C9: when the sanitized text is empty, `speak(text)` resolves
immediately with no side effects — the state is unchanged, no effect or
callback happens, and the promise resolves. -/
theorem speak_empty_sanitized_no_side_effects (st : VMState) (env : SpeakEnv)
    (text : String) (h : cleanTextForSpeech text = "") :
    speakFull st env text =
      { state := st, evs := [], result := SpeakResult.resolved } := by
  simp [speakFull, h]

/-- Claim C9, witness: `"#"` sanitizes to the empty string, and speaking it
from the sample remote configuration changes nothing. -/
theorem speak_empty_sanitized_no_side_effects_witness :
    cleanTextForSpeech "#" = "" ∧
    speakFull sampleRemote envAllOk "#" =
      { state := sampleRemote, evs := [], result := SpeakResult.resolved } :=
  ⟨by decide,
   speak_empty_sanitized_no_side_effects sampleRemote envAllOk "#" (by decide)⟩

/-! ## Claim C8 — `'aborted'` recognition errors are benign -/

/-- Claim C8: an `'aborted'` recognition error never reaches `onError` and
emits only `onListeningEnd`; every other error code is delivered to
`onError` with its mapped message and does not emit `onListeningEnd`. -/
theorem aborted_never_surfaces :
    ((handleRecognitionError "aborted").2 = [VEvent.listeningEnd] ∧
      ∀ m, VEvent.error m ∉ (handleRecognitionError "aborted").2) ∧
    ∀ e, e ≠ "aborted" →
      (handleRecognitionError e).2 = [VEvent.error (recErrorMessage e)] ∧
      VEvent.listeningEnd ∉ (handleRecognitionError e).2 := by
  refine ⟨⟨by decide, fun m => by simp [handleRecognitionError]⟩, fun e he => ?_⟩
  simp [handleRecognitionError, he]

/-- Claim C8, witness: the theorem applied to the `'network'` error code. -/
theorem aborted_never_surfaces_witness :
    (handleRecognitionError "network").2 =
      [VEvent.error (recErrorMessage "network")] ∧
    VEvent.listeningEnd ∉ (handleRecognitionError "network").2 :=
  aborted_never_surfaces.2 "network" (by decide)

/-- `browserTexts` distributes over event concatenation. -/
theorem browserTexts_append (l₁ l₂ : List VEvent) :
    browserTexts (l₁ ++ l₂) = browserTexts l₁ ++ browserTexts l₂ :=
  List.filterMap_append l₁ l₂ _

/-- `browserTexts` collects the text of a leading `browserUtter`. -/
theorem browserTexts_utter (t : String) (l : List VEvent) :
    browserTexts (VEvent.browserUtter t :: l) = t :: browserTexts l := rfl

/-- Leading events other than `browserUtter` contribute no text. -/
theorem browserTexts_pause (l : List VEvent) :
    browserTexts (VEvent.audioPauseReset :: l) = browserTexts l := rfl

/-- Leading events other than `browserUtter` contribute no text. -/
theorem browserTexts_cancel (l : List VEvent) :
    browserTexts (VEvent.synthCancel :: l) = browserTexts l := rfl

/-- Leading events other than `browserUtter` contribute no text. -/
theorem browserTexts_stopReq (l : List VEvent) :
    browserTexts (VEvent.stopListeningReq :: l) = browserTexts l := rfl

/-- Leading events other than `browserUtter` contribute no text. -/
theorem browserTexts_start (l : List VEvent) :
    browserTexts (VEvent.speakingStart :: l) = browserTexts l := rfl

/-- Leading events other than `browserUtter` contribute no text. -/
theorem browserTexts_end (l : List VEvent) :
    browserTexts (VEvent.speakingEnd :: l) = browserTexts l := rfl

/-- Leading events other than `browserUtter` contribute no text. -/
theorem browserTexts_fetch (t : String) (l : List VEvent) :
    browserTexts (VEvent.fetchIssued t :: l) = browserTexts l := rfl

/-- Leading events other than `browserUtter` contribute no text. -/
theorem browserTexts_playStart (l : List VEvent) :
    browserTexts (VEvent.audioPlaybackStarted :: l) = browserTexts l := rfl

/-- Leading events other than `browserUtter` contribute no text. -/
theorem browserTexts_played (l : List VEvent) :
    browserTexts (VEvent.audioPlayedToEnd :: l) = browserTexts l := rfl

/-- Leading events other than `browserUtter` contribute no text. -/
theorem browserTexts_restart (l : List VEvent) :
    browserTexts (VEvent.restartScheduled :: l) = browserTexts l := rfl

/-- The empty trace holds no text. -/
theorem browserTexts_nil : browserTexts [] = [] := rfl

/-! ## Claim C4 — no remote attempt while audio is locked -/

/-- Claim C4: with the remote provider active but the unlock flag false,
`speak(text)` never issues a network request, and (when the sanitized text
is non-empty) hands the sanitized text straight to the browser path. -/
theorem locked_never_remote (st : VMState) (env : SpeakEnv) (text : String)
    (hp : st.ttsProvider = Provider.openai) (hu : st.audioUnlocked = false) :
    (∀ t, VEvent.fetchIssued t ∉ (speakFull st env text).evs) ∧
    (cleanTextForSpeech text ≠ "" →
      browserTexts (speakFull st env text).evs = [cleanTextForSpeech text]) := by
  by_cases hct : cleanTextForSpeech text = ""
  · simp [speakFull, hct]
  · have hevs : (speakFull st env text).evs =
        [VEvent.audioPauseReset, VEvent.synthCancel] ++
          (speakWithBrowser { st with isSpeaking := false } env
            (cleanTextForSpeech text)).evs := by
      by_cases hk : st.openaiApiKey = ""
      · simp [speakFull, hct, hk]
      · simp [speakFull, speakWithOpenAI, hct, hk, hp, hu]
    refine ⟨fun t => ?_, fun _ => ?_⟩
    · rw [hevs]
      simp [fetchIssued_not_mem_speakWithBrowser]
    · rw [hevs, browserTexts_append, browserTexts_speakWithBrowser]
      simp [browserTexts]

/-- Claim C4, witness: the theorem at a locked remote configuration and
the input `"hello"`. -/
theorem locked_never_remote_witness :
    (∀ t, VEvent.fetchIssued t ∉
      (speakFull { sampleRemote with audioUnlocked := false } envAllOk
        "hello").evs) ∧
    browserTexts (speakFull { sampleRemote with audioUnlocked := false }
        envAllOk "hello").evs = [cleanTextForSpeech "hello"] :=
  ⟨(locked_never_remote _ envAllOk "hello" (by decide) (by decide)).1,
   (locked_never_remote _ envAllOk "hello" (by decide) (by decide)).2
     (by decide)⟩

/-! ## Claim C10 — empty credential forces the local path -/

/-- Claim C10: with the remote provider selected but an empty stored key,
`speak(text)` never attempts the remote path — no network request — and
(when the sanitized text is non-empty) uses the browser path directly. -/
theorem empty_key_never_remote (st : VMState) (env : SpeakEnv) (text : String)
    (_hp : st.ttsProvider = Provider.openai) (hk : st.openaiApiKey = "") :
    (∀ t, VEvent.fetchIssued t ∉ (speakFull st env text).evs) ∧
    (cleanTextForSpeech text ≠ "" →
      browserTexts (speakFull st env text).evs = [cleanTextForSpeech text]) := by
  by_cases hct : cleanTextForSpeech text = ""
  · simp [speakFull, hct]
  · have hevs : (speakFull st env text).evs =
        [VEvent.audioPauseReset, VEvent.synthCancel] ++
          (speakWithBrowser { st with isSpeaking := false } env
            (cleanTextForSpeech text)).evs := by
      simp [speakFull, hct, hk]
    refine ⟨fun t => ?_, fun _ => ?_⟩
    · rw [hevs]
      simp [fetchIssued_not_mem_speakWithBrowser]
    · rw [hevs, browserTexts_append, browserTexts_speakWithBrowser]
      simp [browserTexts]

/-- Claim C10, witness: the theorem at a remote configuration whose stored
key is empty, on the input `"hello"`. -/
theorem empty_key_never_remote_witness :
    (∀ t, VEvent.fetchIssued t ∉
      (speakFull { sampleRemote with openaiApiKey := "" } envAllOk
        "hello").evs) ∧
    browserTexts (speakFull { sampleRemote with openaiApiKey := "" }
        envAllOk "hello").evs = [cleanTextForSpeech "hello"] :=
  ⟨(empty_key_never_remote _ envAllOk "hello" (by decide) (by decide)).1,
   (empty_key_never_remote _ envAllOk "hello" (by decide) (by decide)).2
     (by decide)⟩

/-! ## Claim C3 — remote failure falls back exactly once -/

/-- Claim C3: on any of the remote failure modes (request failure, non-2xx
response, playback-start failure), `speak(text)` retries exactly once via
the browser path with the identical sanitized text, and the promise
settles exactly as the browser path does — it rejects only if the local
engine itself fails with a hard error. -/
theorem remote_failure_single_fallback (st : VMState) (env : SpeakEnv)
    (text : String) (hp : st.ttsProvider = Provider.openai)
    (hk : st.openaiApiKey ≠ "") (hu : st.audioUnlocked = true)
    (hct : cleanTextForSpeech text ≠ "") (hf : remoteFails env) :
    browserTexts (speakFull st env text).evs = [cleanTextForSpeech text] ∧
    (speakFull st env text).result = browserSettles env.browser := by
  rcases env with ⟨f, p, b⟩
  rcases hf with hf | ⟨n, hf⟩ | ⟨hf, hps⟩ <;> subst hf <;>
    try subst hps
  all_goals
    cases hL : st.isListening <;>
      constructor <;>
        simp [speakFull, speakWithOpenAI, hct, hp, hk, hu, hL,
          browserTexts_speakWithBrowser, result_speakWithBrowser,
          browserTexts_pause, browserTexts_cancel, browserTexts_stopReq,
          browserTexts_start, browserTexts_end, browserTexts_fetch,
          browserTexts_nil]

/-- Claim C3, witness: a simulated network failure on `"hello"`; the call
completes via the browser path with the sanitized text and resolves. -/
theorem remote_failure_single_fallback_witness :
    browserTexts (speakFull sampleRemote
      { fetch := FetchOutcome.netError, play := PlayOutcome.ended,
        browser := BrowserOutcome.ended } "hello").evs =
      [cleanTextForSpeech "hello"] ∧
    (speakFull sampleRemote
      { fetch := FetchOutcome.netError, play := PlayOutcome.ended,
        browser := BrowserOutcome.ended } "hello").result =
      browserSettles BrowserOutcome.ended :=
  remote_failure_single_fallback sampleRemote _ "hello" (by decide)
    (by decide) (by decide) (by decide) (Or.inl rfl)

/-! ## Claim C5 — when "speaking started" is emitted -/

/-- An occurrence of `a` at the head is before any `b` in the tail. -/
theorem eventBefore_here (a b : VEvent) (l : List VEvent) (hb : b ∈ l) :
    eventBefore a b (a :: l) :=
  ⟨[], l, rfl, hb⟩

/-- `eventBefore` is stable under extending the trace on the left. -/
theorem eventBefore_cons (a b c : VEvent) (l : List VEvent)
    (h : eventBefore a b l) : eventBefore a b (c :: l) := by
  obtain ⟨l₁, l₂, hl, hb⟩ := h
  exact ⟨c :: l₁, l₂, by rw [hl]; rfl, hb⟩

/-- Claim C5, counterexample: in a fully successful remote run the
"speaking started" notification is emitted before the synthesis request is
even issued, and in particular before audio playback begins — not "only
once audio playback has actually begun". -/
theorem speakingStart_precedes_playback :
    (speakFull sampleRemote envAllOk "hi").evs =
      [VEvent.audioPauseReset, VEvent.synthCancel, VEvent.speakingStart,
       VEvent.fetchIssued "hi", VEvent.audioPlaybackStarted,
       VEvent.audioPlayedToEnd, VEvent.speakingEnd] ∧
    eventBefore VEvent.speakingStart VEvent.audioPlaybackStarted
      (speakFull sampleRemote envAllOk "hi").evs :=
  ⟨by decide,
   ⟨[VEvent.audioPauseReset, VEvent.synthCancel],
    [VEvent.fetchIssued "hi", VEvent.audioPlaybackStarted,
     VEvent.audioPlayedToEnd, VEvent.speakingEnd],
    by decide, by decide⟩⟩

/-- Claim C5 (amended): on the remote path, "speaking started" is emitted
when the speaking phase is entered — before the synthesis request is
issued, not once playback begins — and within one invocation it is always
observed before "speaking ended". -/
theorem speakingStart_before_request_and_end (st : VMState) (env : SpeakEnv)
    (text : String) (hp : st.ttsProvider = Provider.openai)
    (hk : st.openaiApiKey ≠ "") (hu : st.audioUnlocked = true)
    (hct : cleanTextForSpeech text ≠ "") :
    eventBefore VEvent.speakingStart
      (VEvent.fetchIssued (cleanTextForSpeech text))
      (speakFull st env text).evs ∧
    eventBefore VEvent.speakingStart VEvent.speakingEnd
      (speakFull st env text).evs := by
  rcases env with ⟨f, p, b⟩
  cases f <;> cases p <;> cases hL : st.isListening <;>
    constructor <;>
      simp only [speakFull, speakWithOpenAI, hct, hp, hk, hu, hL] <;>
        simp [hct, hk] <;>
          repeat'
            first
            | exact eventBefore_here _ _ _ (by simp)
            | apply eventBefore_cons

/-- Claim C5 (amended), witness: the ordering facts at a concrete
successful remote run of `speak("hi")`. -/
theorem speakingStart_before_request_and_end_witness :
    eventBefore VEvent.speakingStart
      (VEvent.fetchIssued (cleanTextForSpeech "hi"))
      (speakFull sampleRemote envAllOk "hi").evs ∧
    eventBefore VEvent.speakingStart VEvent.speakingEnd
      (speakFull sampleRemote envAllOk "hi").evs :=
  speakingStart_before_request_and_end sampleRemote envAllOk "hi"
    (by decide) (by decide) (by decide) (by decide)

/-! ## Claim C1 — no session epoch: stale responses are not discarded -/

/-- Claim C1, counterexample: in `c1Trace` the second (last) `speak()`
call supersedes the first, yet the first call's late synthesis response is
loaded and played, and it is call 1's audio — not call 2's — that is heard
to completion; both promises resolve.  There is no session-epoch check
discarding the stale response. -/
theorem stale_response_resurrects :
    (runTrace initT c1Trace).map TState.completedAudio = some [1] ∧
    (runTrace initT c1Trace).map TState.resolvedCalls = some [2, 1] := by
  decide

/-- Claim C1 (amended): `speak()` maintains no session epoch.  A new call
does stop current playback synchronously, but an in-flight remote
synthesis response belonging to a superseded invocation is not discarded:
whenever a pending fetch returns, its audio is loaded into the shared
element and played, its completion listener is registered — and when the
element fires `'ended'`, every registered invocation's promise resolves
(so superseded calls' promises still resolve, but their audio can be the
audio heard to completion). -/
theorem stale_response_played_not_discarded :
    (∀ (s : TState) (id : Nat) (t : String), (id, t) ∈ s.pendingFetches →
      ∃ s', stepA s (TAction.fetchReturns id) = some s' ∧
        s'.audioSrc = some id ∧ s'.audioPlaying = true ∧
        s'.listeners = s.listeners ++ [id]) ∧
    (∀ (s : TState) (j : Nat), s.audioPlaying = true →
      s.audioSrc = some j →
      ∃ s', stepA s TAction.audioEnded = some s' ∧
        s'.resolvedCalls = s.resolvedCalls ++ s.listeners ∧
        s'.completedAudio = s.completedAudio ++ [j]) := by
  constructor
  · intro s id t hmem
    cases hfind : s.pendingFetches.find? (fun p => p.1 = id) with
    | none =>
        rw [List.find?_eq_none] at hfind
        exact absurd (by simp : decide ((id, t).1 = id) = true)
          (by simpa using hfind (id, t) hmem)
    | some x =>
        refine ⟨{ s with
          pendingFetches := s.pendingFetches.filter (fun p => p.1 ≠ id),
          listeners := s.listeners ++ [id], audioSrc := some id,
          audioPlaying := true }, ?_, rfl, rfl, rfl⟩
        simp [stepA, hfind]
  · intro s j hplay hsrc
    refine ⟨{ s with
      audioPlaying := false, isSpeaking := false,
      listeners := [], resolvedCalls := s.resolvedCalls ++ s.listeners,
      completedAudio := s.completedAudio ++ [j] }, ?_, rfl, rfl⟩
    simp [stepA, hsrc, hplay]

/-- Claim C1 (amended), witness: a pending fetch of call 1 is played on
arrival, and an `'ended'` event resolves every registered call. -/
theorem stale_response_played_not_discarded_witness :
    (∃ s', stepA { initT with pendingFetches := [(1, "x")] } (TAction.fetchReturns 1) = some s' ∧ s'.audioSrc = some 1 ∧ s'.audioPlaying = true ∧ s'.listeners = [1]) ∧
    (∃ s', stepA { initT with audioPlaying := true, audioSrc := some 1, listeners := [2, 1] } TAction.audioEnded = some s' ∧ s'.resolvedCalls = [2, 1] ∧ s'.completedAudio = [1]) := by
  constructor
  · simpa using stale_response_played_not_discarded.1
      { initT with pendingFetches := [(1, "x")] } 1 "x" (by decide)
  · simpa using stale_response_played_not_discarded.2
      { initT with audioPlaying := true, audioSrc := some 1, listeners := [2, 1] } 1
      (by decide) (by decide)

/-! ## Claim C2 — Listening/Speaking mutual exclusion -/

/-- Claim C2, counterexample: `startListening()` invoked while the manager
is speaking is not prevented, so after the engine's `onstart` callback the
Listening and Speaking flags are simultaneously true. -/
theorem listening_and_speaking_both_true :
    (runTrace initT c2Trace).map (fun s => (s.isListening, s.isSpeaking)) =
      some (true, true) := by
  decide

/-- Claim C2 (amended): the transition into Speaking does force Listening
off by stopping the recognition engine — `speak()` issues an engine stop
request (Listening stays true only until the engine's asynchronous end
callback, after which Listening is false while Speaking remains true).
The full never-simultaneously-true invariant, however, does not hold for
every interleaving: `startListening()` during speech makes both true. -/
theorem speak_requests_recognition_stop (s : TState) (id : Nat)
    (text : String) (hid : id ∉ s.usedIds)
    (hct : cleanTextForSpeech text ≠ "") (hL : s.isListening = true) :
    ∃ s₁, stepA s (TAction.callSpeak id text) = some s₁ ∧
      s₁.isSpeaking = true ∧ s₁.recStopReq = true ∧
      s₁.isListening = true ∧
      ∃ s₂, stepA s₁ TAction.engineEnded = some s₂ ∧
        s₂.isListening = false ∧ s₂.isSpeaking = true := by
  refine ⟨{ s with
      isSpeaking := true, audioPlaying := false,
      recStopReq := s.recStopReq || s.isListening,
      pendingFetches := s.pendingFetches ++ [(id, cleanTextForSpeech text)],
      usedIds := s.usedIds ++ [id] }, ?_, rfl, by simp [hL], hL, ?_⟩
  · simp [stepA, hid, hct]
  · refine ⟨{ s with
      isSpeaking := true, audioPlaying := false, recStopReq := false,
      isListening := false,
      pendingFetches := s.pendingFetches ++ [(id, cleanTextForSpeech text)],
      usedIds := s.usedIds ++ [id] }, ?_, rfl, rfl⟩
    simp [stepA, hL]

/-- Claim C2 (amended), witness: the stop request and subsequent engine
end, starting from a listening state. -/
theorem speak_requests_recognition_stop_witness :
    ∃ s₁, stepA { initT with isListening := true }
        (TAction.callSpeak 7 "ok") = some s₁ ∧
      s₁.isSpeaking = true ∧ s₁.recStopReq = true ∧
      s₁.isListening = true ∧
      ∃ s₂, stepA s₁ TAction.engineEnded = some s₂ ∧
        s₂.isListening = false ∧ s₂.isSpeaking = true :=
  speak_requests_recognition_stop _ 7 "ok" (by decide) (by decide)
    (by decide)

/-! ## Claim C6 — idempotence of the sanitizer

The sanitizer is not idempotent on the nose: removing a special character
(or an emoji) can splice a URL scheme together, and the freshly created
URL is only removed by a second pass.  The lemmas below show that this is
the only failure mode: whenever the once-sanitized text contains no URL
match, a second pass is the identity. -/

/-- Membership is preserved when `dropWhile` discards elements. -/
theorem mem_of_mem_dropWhile {p : Char → Bool} {l : List Char} {c : Char}
    (h : c ∈ l.dropWhile p) : c ∈ l :=
  (List.dropWhile_suffix p).subset h

/-- The head surviving `dropWhile p` does not satisfy `p`. -/
theorem head?_dropWhile_false {p : Char → Bool} {l : List Char} {a : Char}
    (h : (l.dropWhile p).head? = some a) : p a = false := by
  induction l with
  | nil => simp at h
  | cons c t ih =>
      rw [List.dropWhile_cons] at h
      by_cases hp : p c
      · exact ih (by simpa [hp] using h)
      · simp only [hp, if_false] at h
        cases h
        simpa using hp

/-- If the head fails `p`, `dropWhile p` keeps the whole list. -/
theorem dropWhile_eq_self_of_head {p : Char → Bool} {l : List Char}
    (h : ∀ a, l.head? = some a → p a = false) : l.dropWhile p = l := by
  cases l with
  | nil => rfl
  | cons a t => rw [List.dropWhile_cons]; simp [h a rfl]

/-- The URL scanner only ever keeps characters of its input. -/
theorem mem_urlAux (b : Bool) (l : List Char) (c : Char)
    (h : c ∈ urlAux b l) : c ∈ l := by
  induction b, l using urlAux.induct <;> simp_all [urlAux] <;> tauto

/-- The whitespace collapser only keeps input characters or the plain
space it substitutes for a run. -/
theorem mem_collapseAux (b : Bool) (l : List Char) (c : Char)
    (h : c ∈ collapseAux b l) : c ∈ l ∨ c = ' ' := by
  induction l generalizing b with
  | nil => simp [collapseAux] at h
  | cons a t ih =>
      rw [collapseAux] at h
      by_cases hsp : isJsSpace a
      · by_cases hb : b
        · rcases ih true (by simpa [hsp, hb] using h) with h' | h'
          · exact Or.inl (List.mem_cons_of_mem _ h')
          · exact Or.inr h'
        · rcases (by simpa [hsp, hb] using h : c = ' ' ∨ c ∈ collapseAux true t)
            with h' | h'
          · exact Or.inr h'
          · rcases ih true h' with h'' | h''
            · exact Or.inl (List.mem_cons_of_mem _ h'')
            · exact Or.inr h''
      · rcases (by simpa [hsp] using h : c = a ∨ c ∈ collapseAux false t)
          with h' | h'
        · exact Or.inl (h' ▸ List.mem_cons_self a t)
        · rcases ih false h' with h'' | h''
          · exact Or.inl (List.mem_cons_of_mem _ h'')
          · exact Or.inr h''

/-- `jsTrim` only ever keeps characters of its input. -/
theorem mem_jsTrim {l : List Char} {c : Char} (h : c ∈ jsTrim l) : c ∈ l := by
  rw [jsTrim, List.mem_reverse] at h
  exact mem_of_mem_dropWhile (by simpa using mem_of_mem_dropWhile h)

/-- The collapser's output is well-spaced, and in look-for-run mode it
never starts with whitespace. -/
theorem goodWs_collapseAux (l : List Char) :
    goodWs (collapseAux true l) ∧ goodWs (collapseAux false l) ∧
    ∀ c, (collapseAux true l).head? = some c → isJsSpace c = false := by
  induction l with
  | nil =>
      have e : ∀ b, collapseAux b ([] : List Char) = [] := fun _ => rfl
      simp only [e]
      exact ⟨⟨List.chain'_nil, by simp⟩, ⟨List.chain'_nil, by simp⟩, by simp⟩
  | cons a t ih =>
      obtain ⟨⟨ihc₁, ihm₁⟩, ⟨ihc₂, ihm₂⟩, ihh⟩ := ih
      by_cases hsp : isJsSpace a
      · have e₁ : collapseAux true (a :: t) = collapseAux true t := by
          rw [collapseAux]; simp [hsp]
        have e₂ : collapseAux false (a :: t) = ' ' :: collapseAux true t := by
          rw [collapseAux]; simp [hsp]
        refine ⟨e₁ ▸ ⟨ihc₁, ihm₁⟩, ?_, ?_⟩
        · rw [e₂]
          constructor
          · rw [List.chain'_cons']
            exact ⟨fun y hy => Or.inr (ihh y hy), ihc₁⟩
          · intro c hc hcs
            rcases List.mem_cons.mp hc with h' | h'
            · exact h'
            · exact ihm₁ c h' hcs
        · intro c hc
          rw [e₁] at hc
          exact ihh c hc
      · have hcons : ∀ b, collapseAux b (a :: t) = a :: collapseAux false t := by
          intro b; rw [collapseAux]; simp [hsp]
        have hgood : goodWs (a :: collapseAux false t) := by
          constructor
          · rw [List.chain'_cons']
            exact ⟨fun y _ => Or.inl (by simpa using hsp), ihc₂⟩
          · intro c hc hcs
            rcases List.mem_cons.mp hc with h' | h'
            · exact absurd (h' ▸ hcs) (by simpa using hsp)
            · exact ihm₂ c h' hcs
        refine ⟨hcons true ▸ hgood, hcons false ▸ hgood, ?_⟩
        intro c hc
        rw [hcons true] at hc
        cases hc
        simpa using hsp

/-- On well-spaced input the collapser is the identity. -/
theorem collapseAux_eq_self (l : List Char) (hg : goodWs l) :
    collapseAux false l = l ∧
    ((∀ c, l.head? = some c → isJsSpace c = false) →
      collapseAux true l = l) := by
  induction l with
  | nil => exact ⟨rfl, fun _ => rfl⟩
  | cons a t ih =>
      obtain ⟨hchain, hmem⟩ := hg
      rw [List.chain'_cons'] at hchain
      obtain ⟨hR, hchain'⟩ := hchain
      have hg' : goodWs t :=
        ⟨hchain', fun c hc => hmem c (List.mem_cons_of_mem _ hc)⟩
      obtain ⟨ih₁, ih₂⟩ := ih hg'
      by_cases hsp : isJsSpace a
      · have ha : a = ' ' := hmem a (List.mem_cons_self a t) hsp
        have hth : ∀ c, t.head? = some c → isJsSpace c = false := by
          intro c hc
          rcases hR c hc with h' | h'
          · exact absurd hsp (by simp [h'])
          · exact h'
        constructor
        · have e₂ : collapseAux false (a :: t) = ' ' :: collapseAux true t := by
            rw [collapseAux]; simp [hsp]
          rw [e₂, ih₂ hth, ha]
        · intro hh
          exact absurd (hh a rfl) (by simpa using hsp)
      · constructor
        · rw [collapseAux]; simp [hsp, ih₁]
        · intro _
          rw [collapseAux]; simp [hsp, ih₁]

/-- Well-spacedness survives `dropWhile`. -/
theorem goodWs_dropWhile {l : List Char} (hg : goodWs l) :
    goodWs (l.dropWhile isJsSpace) :=
  ⟨hg.1.suffix (List.dropWhile_suffix _),
   fun c hc => hg.2 c (mem_of_mem_dropWhile hc)⟩

/-- Well-spacedness survives reversal. -/
theorem goodWs_reverse {l : List Char} (hg : goodWs l) :
    goodWs l.reverse := by
  refine ⟨List.chain'_reverse.mpr (hg.1.imp ?_), ?_⟩
  · intro a b h
    exact h.symm
  · intro c hc
    exact hg.2 c (List.mem_reverse.mp hc)

/-- Well-spacedness survives trimming. -/
theorem goodWs_jsTrim {l : List Char} (hg : goodWs l) :
    goodWs (jsTrim l) :=
  goodWs_reverse (goodWs_dropWhile (goodWs_reverse (goodWs_dropWhile hg)))

/-- Trimming is idempotent. -/
theorem jsTrim_idem (l : List Char) : jsTrim (jsTrim l) = jsTrim l := by
  have hfront : ∀ m : List Char, jsTrim m <+: m.dropWhile isJsSpace := by
    intro m
    rw [← List.reverse_suffix, jsTrim, List.reverse_reverse]
    exact List.dropWhile_suffix _
  have hhead : ∀ a, (jsTrim l).head? = some a → isJsSpace a = false := by
    intro a ha
    obtain ⟨u, hu⟩ := hfront l
    cases hj : jsTrim l with
    | nil => rw [hj] at ha; simp at ha
    | cons b w =>
        rw [hj] at ha hu
        cases ha
        exact head?_dropWhile_false (l := l) (by rw [← hu]; rfl)
  have h₁ : (jsTrim l).dropWhile isJsSpace = jsTrim l :=
    dropWhile_eq_self_of_head hhead
  rw [jsTrim, h₁, jsTrim, List.reverse_reverse, List.dropWhile_idempotent]

/-- One collapse-and-trim normalisation pass is idempotent. -/
theorem norm_idem (u : List Char) :
    jsTrim (collapseWs (jsTrim (collapseWs u))) = jsTrim (collapseWs u) := by
  have hy : goodWs (collapseWs u) := (goodWs_collapseAux u).2.1
  have ht : goodWs (jsTrim (collapseWs u)) := goodWs_jsTrim hy
  rw [collapseWs, (collapseAux_eq_self _ ht).1, jsTrim_idem]

/-- Characters surviving a full sanitization pass are neither emoji nor
special characters. -/
theorem cleanList_chars (l : List Char) (c : Char) (hc : c ∈ cleanList l) :
    isEmojiChar c = false ∧ isSpecialChar c = false := by
  rcases mem_collapseAux false _ c (mem_jsTrim hc) with h' | h'
  · have h₁ : c ∈ urlRemove (emojiRemove l) ∧ (!isSpecialChar c) = true :=
      List.mem_filter.mp h'
    have h₂ : c ∈ emojiRemove l := mem_urlAux false _ c h₁.1
    have h₃ : (!isEmojiChar c) = true := (List.mem_filter.mp h₂).2
    exact ⟨by simpa using h₃, by simpa using h₁.2⟩
  · subst h'
    exact ⟨by decide, by decide⟩

/-- Claim C6, counterexample: the sanitizer is not idempotent.  On
`"http*://x"` the first pass removes only the `*`, splicing together the
URL `"http://x"`; the second pass then removes it, so sanitizing twice
differs from sanitizing once. -/
theorem cleanText_not_idempotent :
    cleanTextForSpeech (cleanTextForSpeech "http*://x") ≠
      cleanTextForSpeech "http*://x" := by
  decide

/-- Claim C6 (amended): the sanitizer is idempotent on every input whose
once-sanitized text contains no URL match (i.e. URL removal is a no-op on
it) — removing emojis or markup characters can splice together a new URL,
and that is the only way idempotence fails. -/
theorem cleanText_idem_of_no_new_url (s : String)
    (h : urlRemove (cleanTextForSpeech s).data = (cleanTextForSpeech s).data) :
    cleanTextForSpeech (cleanTextForSpeech s) = cleanTextForSpeech s := by
  have hdata : (cleanTextForSpeech s).data = cleanList s.data := rfl
  rw [hdata] at h
  show String.mk (cleanList (cleanTextForSpeech s).data) =
    String.mk (cleanList s.data)
  rw [hdata]
  have he : emojiRemove (cleanList s.data) = cleanList s.data :=
    List.filter_eq_self.mpr
      (fun c hc => by simpa using (cleanList_chars s.data c hc).1)
  have hs : specialRemove (cleanList s.data) = cleanList s.data :=
    List.filter_eq_self.mpr
      (fun c hc => by simpa using (cleanList_chars s.data c hc).2)
  have hexp : cleanList (cleanList s.data) =
      jsTrim (collapseWs (cleanList s.data)) := by
    rw [cleanList, he, h, hs]
  have hform : cleanList s.data =
      jsTrim (collapseWs (specialRemove (urlRemove (emojiRemove s.data)))) :=
    rfl
  apply congrArg String.mk
  rw [hexp, hform]
  exact norm_idem (specialRemove (urlRemove (emojiRemove s.data)))

/-- Claim C6 (amended), witness: `"hello world"` sanitizes to a URL-free
string, and sanitizing it twice equals sanitizing it once. -/
theorem cleanText_idem_of_no_new_url_witness :
    urlRemove (cleanTextForSpeech "hello world").data =
      (cleanTextForSpeech "hello world").data ∧
    cleanTextForSpeech (cleanTextForSpeech "hello world") =
      cleanTextForSpeech "hello world" :=
  ⟨by decide, cleanText_idem_of_no_new_url "hello world" (by decide)⟩

end Kuchi
